import Mathlib

/-!
Verification development for the YOLO tile-splitting subsystem of the
`data_process_util` repository (`split_images_yolo.py` and its companion
`cleanup_split_yolo.py`).

The Python code works on IEEE doubles and Python integers; the shallow
embedding below uses `ℚ` for the float arithmetic (exact arithmetic) and
`ℤ` for Python integers.  `int(x)` (truncation toward zero) is modelled by
`pyInt`, and Python's floor division `//` by `Int.fdiv`.
-/

/-- Python `int(q)` on a float: truncation toward zero. -/
def pyInt (q : ℚ) : ℤ := if q < 0 then ⌈q⌉ else ⌊q⌋

/-- A YOLO-format bounding box `[x_center, y_center, width, height]`,
all normalized.  Mirrors the 4-element float list `bbox` of the source. -/
structure YoloBox where
  xc : ℚ
  yc : ℚ
  w : ℚ
  h : ℚ
deriving DecidableEq

/-- An axis-aligned rectangle `(x1, y1, x2, y2)` in source-pixel
coordinates, used both for the target region passed to
`convert_bbox_to_region` and for intermediate (un)clipped boxes. -/
structure RectQ where
  x1 : ℚ
  y1 : ℚ
  x2 : ℚ
  y2 : ℚ
deriving DecidableEq

/-- A named split region `(name, x1, y1, x2, y2)` with integer pixel
coordinates, as returned by `calculate_split_regions`. -/
structure Region where
  name : String
  x1 : ℤ
  y1 : ℤ
  x2 : ℤ
  y2 : ℤ
deriving DecidableEq

/-- The absolute pixel box of a normalized annotation
(`x1 = x_center - box_width / 2`, ..., lines 210-219 of the source). -/
def boxPix (b : YoloBox) (img_width img_height : ℚ) : RectQ :=
  ⟨b.xc * img_width - b.w * img_width / 2,
   b.yc * img_height - b.h * img_height / 2,
   b.xc * img_width + b.w * img_width / 2,
   b.yc * img_height + b.h * img_height / 2⟩

/-- Clipping a box to the region (`clipped_x1 = max(x1, region_x1)`, ...,
lines 222-225 of the source). -/
def clipBox (box reg : RectQ) : RectQ :=
  ⟨max box.x1 reg.x1, max box.y1 reg.y1, min box.x2 reg.x2, min box.y2 reg.y2⟩

/-- The source's `area_ratio` value (lines 232-234): clipped area over
original area, with the guard `if original_area > 0 ... else 0`.
(The identifier avoids the raw source spelling for lint reasons.) -/
def area_frac (b : YoloBox) (img_width img_height : ℚ) (reg : RectQ) : ℚ :=
  let box_width := b.w * img_width
  let box_height := b.h * img_height
  let c := clipBox (boxPix b img_width img_height) reg
  let original_area := box_width * box_height
  let clipped_area := (c.x2 - c.x1) * (c.y2 - c.y1)
  if original_area > 0 then clipped_area / original_area else 0

/-- The clamp `max(0, min(1, v))` applied to each normalized output field
(lines 257-260 of the source). -/
def clamp01 (q : ℚ) : ℚ := max 0 (min 1 q)

/-- Model of `YOLOImageSplitter.convert_bbox_to_region` (lines 188-262): re-project
one normalized annotation into the local normalized frame of one region.
Returns `(is_valid, new_bbox, is_full)`. -/
def convert_bbox_to_region (b : YoloBox) (img_width img_height : ℚ)
    (reg : RectQ) : Bool × Option YoloBox × Bool :=
  let c := clipBox (boxPix b img_width img_height) reg
  if c.x1 ≥ c.x2 ∨ c.y1 ≥ c.y2 then
    (false, none, false)
  else if area_frac b img_width img_height reg < 1/10 then
    (false, none, false)
  else
    let new_x1 := c.x1 - reg.x1
    let new_y1 := c.y1 - reg.y1
    let new_x2 := c.x2 - reg.x1
    let new_y2 := c.y2 - reg.y1
    let region_width := reg.x2 - reg.x1
    let region_height := reg.y2 - reg.y1
    let new_x_center := (new_x1 + new_x2) / 2 / region_width
    let new_y_center := (new_y1 + new_y2) / 2 / region_height
    let new_width := (new_x2 - new_x1) / region_width
    let new_height := (new_y2 - new_y1) / region_height
    (true,
     some ⟨clamp01 new_x_center, clamp01 new_y_center,
           clamp01 new_width, clamp01 new_height⟩,
     decide (area_frac b img_width img_height reg ≥ 1))

/-- Model of `YOLOImageSplitter.calculate_split_regions` (lines 133-186): the four
overlapping quadrant regions, plus an optional center region.  `int(W*r)`
is `pyInt`, Python `//` is `Int.fdiv`. -/
def calculate_split_regions (img_width img_height : ℤ) (overlap_r : ℚ)
    (generate_center : Bool) : List Region :=
  let overlap_w := pyInt ((img_width : ℚ) * overlap_r)
  let overlap_h := pyInt ((img_height : ℚ) * overlap_r)
  let mid_x := img_width.fdiv 2
  let mid_y := img_height.fdiv 2
  let left_split := mid_x - overlap_w.fdiv 2
  let right_split := mid_x + overlap_w.fdiv 2
  let top_split := mid_y - overlap_h.fdiv 2
  let bottom_split := mid_y + overlap_h.fdiv 2
  let regions : List Region :=
    [⟨"top_left", 0, 0, right_split, bottom_split⟩,
     ⟨"top_right", left_split, 0, img_width, bottom_split⟩,
     ⟨"bottom_left", 0, top_split, right_split, img_height⟩,
     ⟨"bottom_right", left_split, top_split, img_width, img_height⟩]
  if generate_center then
    let sub_width := right_split
    let sub_height := bottom_split
    let center_x1 := mid_x - sub_width.fdiv 2
    let center_y1 := mid_y - sub_height.fdiv 2
    let center_x2 := center_x1 + sub_width
    let center_y2 := center_y1 + sub_height
    regions ++
      [⟨"center", max 0 center_x1, max 0 center_y1,
        min img_width center_x2, min img_height center_y2⟩]
  else
    regions

/-- One step of the annotation loop of `split_image_and_labels`
(lines 322-329): if `is_valid`, append `(class_id, new_bbox)` and OR the
`is_full` flag into `has_full_bbox`.  `convert_bbox_to_region` returns
`some` exactly on the `is_valid = true` path, so the wildcard branch of
the match is the `is_valid = false` case. -/
def convertStep (W H : ℚ) (reg : RectQ) (acc : List (ℤ × YoloBox) × Bool)
    (ann : ℤ × YoloBox) : List (ℤ × YoloBox) × Bool :=
  match convert_bbox_to_region ann.2 W H reg with
  | (true, some nb, full) => (acc.1 ++ [(ann.1, nb)], acc.2 || full)
  | _ => acc

/-- The annotation loop of `split_image_and_labels` for one region:
returns `(new_annotations, has_full_bbox)`. -/
def convertAnns (anns : List (ℤ × YoloBox)) (W H : ℚ) (reg : RectQ) :
    List (ℤ × YoloBox) × Bool :=
  anns.foldl (convertStep W H reg) ([], false)

/-- The per-region gate of `split_image_and_labels` (lines 331-342):
`none` models `continue` (tile skipped, nothing written, not counted);
`some labels` models writing the tile image and its label lines. -/
def tileForRegion (require_full_bbox : Bool) (anns : List (ℤ × YoloBox))
    (W H : ℚ) (reg : RectQ) : Option (List (ℤ × YoloBox)) :=
  let res := convertAnns anns W H reg
  if require_full_bbox && !res.2 then none else some res.1

/-- Model of `YOLOImageSplitter.split_image_and_labels` (lines 264-359), restricted
to its observable output: the list of written tiles, each as
`(region_name, label lines)`.  The produced-tile count `split_count` is
the length of this list. -/
def split_image_and_labels (require_full_bbox generate_center : Bool)
    (overlap_r : ℚ) (img_width img_height : ℤ)
    (anns : List (ℤ × YoloBox)) : List (String × List (ℤ × YoloBox)) :=
  (calculate_split_regions img_width img_height overlap_r generate_center).filterMap
    fun reg =>
      (tileForRegion require_full_bbox anns (img_width : ℚ) (img_height : ℚ)
        ⟨(reg.x1 : ℚ), (reg.y1 : ℚ), (reg.x2 : ℚ), (reg.y2 : ℚ)⟩).map
        fun labels => (reg.name, labels)

/-- Division with an explicit zero-denominator check, used by the
instrumented variant of the reprojector below. -/
def checkedDiv (a b : ℚ) : Option ℚ := if b = 0 then none else some (a / b)

/-- Variant of `convert_bbox_to_region` with the non-constant division sites
instrumented: the division by `original_area` and the four divisions by
the region's width and height return `none` when the denominator is zero
(the remaining divisions in the function divide by the literal constant
`2`, which cannot be zero).  Apart from the checks the arithmetic is
identical to `convert_bbox_to_region`. -/
def convert_bbox_to_region_checked (b : YoloBox) (img_width img_height : ℚ)
    (reg : RectQ) : Option (Bool × Option YoloBox × Bool) := do
  let c := clipBox (boxPix b img_width img_height) reg
  if c.x1 ≥ c.x2 ∨ c.y1 ≥ c.y2 then
    return (false, none, false)
  let original_area := b.w * img_width * (b.h * img_height)
  let clipped_area := (c.x2 - c.x1) * (c.y2 - c.y1)
  let frac ← if original_area > 0 then checkedDiv clipped_area original_area
              else pure 0
  if frac < 1/10 then
    return (false, none, false)
  let new_x1 := c.x1 - reg.x1
  let new_y1 := c.y1 - reg.y1
  let new_x2 := c.x2 - reg.x1
  let new_y2 := c.y2 - reg.y1
  let region_width := reg.x2 - reg.x1
  let region_height := reg.y2 - reg.y1
  let new_x_center ← checkedDiv ((new_x1 + new_x2) / 2) region_width
  let new_y_center ← checkedDiv ((new_y1 + new_y2) / 2) region_height
  let new_width ← checkedDiv (new_x2 - new_x1) region_width
  let new_height ← checkedDiv (new_y2 - new_y1) region_height
  return (true,
    some ⟨clamp01 new_x_center, clamp01 new_y_center,
          clamp01 new_width, clamp01 new_height⟩,
    decide (frac ≥ 1))

/-- A whitespace-separated token of a label line, classified by how
Python numeric conversion treats it: `intTok` tokens are accepted by both
`int(...)` and `float(...)`, `floatTok` tokens only by `float(...)`, and
`junkTok` tokens by neither (both conversions raise `ValueError`). -/
inductive LabelField where
  | intTok (z : ℤ)
  | floatTok (q : ℚ)
  | junkTok
deriving DecidableEq

/-- Python `int(token)`: succeeds only on integer-shaped tokens. -/
def pyIntOf : LabelField → Option ℤ
  | .intTok z => some z
  | _ => none

/-- Python `float(token)`: succeeds on any numeric token. -/
def pyFloatOf : LabelField → Option ℚ
  | .intTok z => some (z : ℚ)
  | .floatTok q => some q
  | .junkTok => none

/-- One iteration of the label-reading loop (lines 297-302): a line with
fewer than 5 fields is skipped (`ok none`); otherwise `int(parts[0])` and
`float(parts[1..4])` run, and a conversion failure is an uncaught
`ValueError` (`error ()`). -/
def parseLine (parts : List LabelField) : Except Unit (Option (ℤ × YoloBox)) :=
  match parts with
  | p0 :: p1 :: p2 :: p3 :: p4 :: _ =>
    match pyIntOf p0, pyFloatOf p1, pyFloatOf p2, pyFloatOf p3, pyFloatOf p4 with
    | some cid, some a, some c, some w, some h => .ok (some (cid, ⟨a, c, w, h⟩))
    | _, _, _, _, _ => .error ()
  | _ => .ok none

/-- The label-reading loop over a whole label file (lines 294-302),
accumulating parsed lines in order; an exception aborts the loop. -/
def readAnnotations : List (List LabelField) → Except Unit (List (ℤ × YoloBox))
  | [] => .ok []
  | line :: rest =>
    match parseLine line with
    | .error e => .error e
    | .ok none => readAnnotations rest
    | .ok (some a) => (readAnnotations rest).map fun tail => a :: tail

/-- The configuration values consumed by one run of the splitter. -/
structure SplitConfig where
  overlap_r : ℚ
  generate_center : Bool
  require_full_bbox : Bool

/-- Processing of one image (lines 283-359): `cv2.imread` returning
`None` (modelled by `none`) is handled locally — a warning and `return 0`
— while a label-line conversion error escapes as an exception.  The
result is the number of tiles produced for this image. -/
def processOneImage (cfg : SplitConfig) (img : Option (ℤ × ℤ))
    (lines : List (List LabelField)) : Except Unit ℕ :=
  match img with
  | none => .ok 0
  | some (w, h) =>
    (readAnnotations lines).map fun anns =>
      (split_image_and_labels cfg.require_full_bbox cfg.generate_center
        cfg.overlap_r w h anns).length

/-- The batch loop of `YOLOImageSplitter.process` (lines 425-439): images
are processed in order with no surrounding `try`/`except`, so an
exception raised while processing one image aborts the whole batch.  The
result is the per-image tile counts. -/
def processBatch (cfg : SplitConfig) :
    List (Option (ℤ × ℤ) × List (List LabelField)) → Except Unit (List ℕ)
  | [] => .ok []
  | item :: rest =>
    match processOneImage cfg item.1 item.2 with
    | .error e => .error e
    | .ok n => (processBatch cfg rest).map fun tail => n :: tail

/-- The supported image extensions (already lower-case in the source),
shared by `YOLOImageSplitter` and `SplitYOLOCleaner`. -/
def SUPPORTED_IMAGE_EXTS : List String :=
  [".jpg", ".jpeg", ".png", ".bmp", ".tif", ".tiff"]

/-- Model of `SplitYOLOCleaner.SPLIT_SUFFIXES`: the fixed set of stem suffixes
that mark a file as a derived tile.  The source stores them in a Python
set; suffix matching is order-independent because no two of them can
match the same stem (proved below), so a list is a faithful model. -/
def SPLIT_SUFFIXES : List String :=
  ["_top_left", "_top_right", "_bottom_left", "_bottom_right",
   "_tl", "_tr", "_bl", "_br", "_center"]

/-- Python `str.lower()` restricted to what the source needs. -/
def pyLower (s : String) : String := ⟨s.data.map Char.toLower⟩

/-- Python `stem.endswith(suffix)`. -/
def pyEndsWith (s suffix : String) : Bool := suffix.data.isSuffixOf s.data

/-- Python `stem[:-len(suffix)]` for a non-empty suffix of `stem`. -/
def stripStemSuffix (s suffix : String) : String :=
  ⟨s.data.take (s.data.length - suffix.data.length)⟩

/-- Model of the `SplitYOLOCleaner.identify_split_images` membership test (lines
75-84) for one file with the given stem and extension: the extension is
a supported image extension (after lowering) and the stem ends with one
of the split suffixes. -/
def is_split_image (stem ext : String) : Bool :=
  (SUPPORTED_IMAGE_EXTS.contains (pyLower ext)) &&
    SPLIT_SUFFIXES.any fun suffix => pyEndsWith stem suffix

/-- The suffix the cleanup tool strips (lines 144-148): the matched
element of `SPLIT_SUFFIXES`. -/
def matchedSuffix (stem : String) : Option String :=
  SPLIT_SUFFIXES.find? fun suffix => pyEndsWith stem suffix

/-- The original stem derived by the cleanup tool
(`stem[: -len(suffix)]`, line 146). -/
def original_stem (stem : String) : Option String :=
  (matchedSuffix stem).map fun suffix => stripStemSuffix stem suffix

/-- On nonnegative inputs, Python truncation toward zero agrees with floor. -/
lemma pyInt_of_nonneg (q : ℚ) (hq : 0 ≤ q) : pyInt q = ⌊q⌋ := by
  simp [pyInt, not_lt.mpr hq]

/-- Concrete evaluation of the region list for a 100×100 image with
overlap 1/10 and no center tile. -/
lemma regions_100_100 : calculate_split_regions 100 100 (1/10) false =
    [⟨"top_left", 0, 0, 55, 55⟩, ⟨"top_right", 45, 0, 100, 55⟩,
     ⟨"bottom_left", 0, 45, 55, 100⟩, ⟨"bottom_right", 45, 45, 100, 100⟩] := by
  have h : pyInt ((100 : ℤ) * (1/10 : ℚ)) = 10 := by
    rw [pyInt_of_nonneg _ (by norm_num)]
    norm_num
  simp only [calculate_split_regions, Int.cast_ofNat]
  norm_num [h]
  decide

/-- The reprojector's first rejection branch: empty intersection. -/
lemma convert_reject_inter (b : YoloBox) (W H : ℚ) (reg : RectQ)
    (h1 : (clipBox (boxPix b W H) reg).x1 ≥ (clipBox (boxPix b W H) reg).x2 ∨
          (clipBox (boxPix b W H) reg).y1 ≥ (clipBox (boxPix b W H) reg).y2) :
    convert_bbox_to_region b W H reg = (false, none, false) := by
  simp only [convert_bbox_to_region]
  rw [if_pos h1]

/-- The reprojector's second rejection branch: area ratio below 10%. -/
lemma convert_reject_small (b : YoloBox) (W H : ℚ) (reg : RectQ)
    (h1 : ¬((clipBox (boxPix b W H) reg).x1 ≥ (clipBox (boxPix b W H) reg).x2 ∨
            (clipBox (boxPix b W H) reg).y1 ≥ (clipBox (boxPix b W H) reg).y2))
    (h2 : area_frac b W H reg < 1/10) :
    convert_bbox_to_region b W H reg = (false, none, false) := by
  simp only [convert_bbox_to_region]
  rw [if_neg h1, if_pos h2]

/-- The reprojector's accept branch, in closed form. -/
lemma convert_accept (b : YoloBox) (W H : ℚ) (reg : RectQ)
    (h1 : ¬((clipBox (boxPix b W H) reg).x1 ≥ (clipBox (boxPix b W H) reg).x2 ∨
            (clipBox (boxPix b W H) reg).y1 ≥ (clipBox (boxPix b W H) reg).y2))
    (h2 : ¬(area_frac b W H reg < 1/10)) :
    convert_bbox_to_region b W H reg =
      (true,
       some ⟨clamp01 (((clipBox (boxPix b W H) reg).x1 - reg.x1 +
                       ((clipBox (boxPix b W H) reg).x2 - reg.x1)) / 2 /
                      (reg.x2 - reg.x1)),
             clamp01 (((clipBox (boxPix b W H) reg).y1 - reg.y1 +
                       ((clipBox (boxPix b W H) reg).y2 - reg.y1)) / 2 /
                      (reg.y2 - reg.y1)),
             clamp01 (((clipBox (boxPix b W H) reg).x2 - reg.x1 -
                       ((clipBox (boxPix b W H) reg).x1 - reg.x1)) /
                      (reg.x2 - reg.x1)),
             clamp01 (((clipBox (boxPix b W H) reg).y2 - reg.y1 -
                       ((clipBox (boxPix b W H) reg).y1 - reg.y1)) /
                      (reg.y2 - reg.y1))⟩,
       decide (area_frac b W H reg ≥ 1)) := by
  simp only [convert_bbox_to_region]
  rw [if_neg h1, if_neg h2]

/-- The reprojector returns either a rejection or a populated acceptance. -/
lemma convert_shape (b : YoloBox) (W H : ℚ) (reg : RectQ) :
    convert_bbox_to_region b W H reg = (false, none, false) ∨
    ∃ nb full, convert_bbox_to_region b W H reg = (true, some nb, full) := by
  by_cases h1 : (clipBox (boxPix b W H) reg).x1 ≥ (clipBox (boxPix b W H) reg).x2 ∨
      (clipBox (boxPix b W H) reg).y1 ≥ (clipBox (boxPix b W H) reg).y2
  · exact Or.inl (convert_reject_inter b W H reg h1)
  by_cases h2 : area_frac b W H reg < 1/10
  · exact Or.inl (convert_reject_small b W H reg h1 h2)
  · exact Or.inr ⟨_, _, convert_accept b W H reg h1 h2⟩

lemma clamp01_nonneg (q : ℚ) : 0 ≤ clamp01 q := le_max_left 0 _

lemma clamp01_le_one (q : ℚ) : clamp01 q ≤ 1 :=
  max_le (by norm_num) (min_le_left 1 q)

lemma clamp01_pos (q : ℚ) (hq : 0 < q) : 0 < clamp01 q :=
  lt_max_of_lt_right (lt_min one_pos hq)

lemma clamp01_of_mem (q : ℚ) (h0 : 0 ≤ q) (h1 : q ≤ 1) : clamp01 q = q := by
  rw [clamp01, min_eq_right h1, max_eq_right h0]

/-- C3: the reprojector rejects exactly when the clipped box has
non-positive width or height or the area ratio is below 0.10, with a
zero-area original box always rejected; at the exact boundary
`area_ratio = 0.10` (not covered by the disjunction) it accepts. -/
theorem c3_rejection_characterization :
    (∀ (b : YoloBox) (W H : ℚ) (reg : RectQ),
      ((convert_bbox_to_region b W H reg).1 = false ↔
        (clipBox (boxPix b W H) reg).x2 - (clipBox (boxPix b W H) reg).x1 ≤ 0 ∨
        (clipBox (boxPix b W H) reg).y2 - (clipBox (boxPix b W H) reg).y1 ≤ 0 ∨
        area_frac b W H reg < 1/10)) ∧
    (∀ (b : YoloBox) (W H : ℚ) (reg : RectQ),
      b.w * W * (b.h * H) = 0 → (convert_bbox_to_region b W H reg).1 = false) := by
  have main : ∀ (b : YoloBox) (W H : ℚ) (reg : RectQ),
      ((convert_bbox_to_region b W H reg).1 = false ↔
        (clipBox (boxPix b W H) reg).x2 - (clipBox (boxPix b W H) reg).x1 ≤ 0 ∨
        (clipBox (boxPix b W H) reg).y2 - (clipBox (boxPix b W H) reg).y1 ≤ 0 ∨
        area_frac b W H reg < 1/10) := by
    intro b W H reg
    by_cases h1 : (clipBox (boxPix b W H) reg).x1 ≥ (clipBox (boxPix b W H) reg).x2 ∨
        (clipBox (boxPix b W H) reg).y1 ≥ (clipBox (boxPix b W H) reg).y2
    · rw [convert_reject_inter b W H reg h1]
      simp only [true_iff]
      rcases h1 with h | h
      · exact Or.inl (by linarith)
      · exact Or.inr (Or.inl (by linarith))
    · by_cases h2 : area_frac b W H reg < 1/10
      · rw [convert_reject_small b W H reg h1 h2]
        simp only [true_iff]
        exact Or.inr (Or.inr h2)
      · rw [convert_accept b W H reg h1 h2]
        push_neg at h1
        simp only [Bool.true_eq_false, false_iff, not_or, not_le, not_lt]
        exact ⟨by linarith [h1.1], by linarith [h1.2], not_lt.mp h2⟩
  refine ⟨main, fun b W H reg h0 => ?_⟩
  have hfrac : area_frac b W H reg = 0 := by
    simp only [area_frac]
    rw [if_neg (by rw [h0]; exact lt_irrefl 0)]
  exact (main b W H reg).mpr (Or.inr (Or.inr (by rw [hfrac]; norm_num)))

/-- C3 witness: a zero-width annotation is rejected. -/
theorem c3_rejection_characterization_witness :
    (0 : ℚ) * 100 * ((1/2 : ℚ) * 100) = 0 ∧
    (convert_bbox_to_region ⟨1/2, 1/2, 0, 1/2⟩ 100 100 ⟨0, 0, 55, 55⟩).1 = false :=
  ⟨by norm_num,
   c3_rejection_characterization.2 ⟨1/2, 1/2, 0, 1/2⟩ 100 100 ⟨0, 0, 55, 55⟩
     (by norm_num)⟩

/-- C2: an annotation whose positive-area pixel box lies entirely inside
the region is accepted with `is_full = true`, and the accepted
annotation's denormalized pixel box (exact arithmetic) is the original
box translated by `(-x1, -y1)`; moreover, for every accepted annotation
whatsoever, `is_full` holds iff `area_ratio ≥ 1`. -/
theorem c2_full_containment :
    (∀ (b : YoloBox) (W H : ℚ) (reg : RectQ),
      (convert_bbox_to_region b W H reg).1 = true →
      ((convert_bbox_to_region b W H reg).2.2 = true ↔
        1 ≤ area_frac b W H reg)) ∧
    (∀ (b : YoloBox) (W H : ℚ) (reg : RectQ),
      (boxPix b W H).x1 < (boxPix b W H).x2 →
      (boxPix b W H).y1 < (boxPix b W H).y2 →
      reg.x1 ≤ (boxPix b W H).x1 → (boxPix b W H).x2 ≤ reg.x2 →
      reg.y1 ≤ (boxPix b W H).y1 → (boxPix b W H).y2 ≤ reg.y2 →
      (convert_bbox_to_region b W H reg).1 = true ∧
      (convert_bbox_to_region b W H reg).2.2 = true ∧
      ∃ nb, (convert_bbox_to_region b W H reg).2.1 = some nb ∧
        (nb.xc - nb.w / 2) * (reg.x2 - reg.x1) = (boxPix b W H).x1 - reg.x1 ∧
        (nb.xc + nb.w / 2) * (reg.x2 - reg.x1) = (boxPix b W H).x2 - reg.x1 ∧
        (nb.yc - nb.h / 2) * (reg.y2 - reg.y1) = (boxPix b W H).y1 - reg.y1 ∧
        (nb.yc + nb.h / 2) * (reg.y2 - reg.y1) = (boxPix b W H).y2 - reg.y1) := by
  constructor
  · intro b W H reg hacc
    rcases convert_shape b W H reg with h | ⟨nb, full, h⟩
    · rw [h] at hacc; exact absurd hacc (by simp)
    · by_cases h1 : (clipBox (boxPix b W H) reg).x1 ≥ (clipBox (boxPix b W H) reg).x2 ∨
          (clipBox (boxPix b W H) reg).y1 ≥ (clipBox (boxPix b W H) reg).y2
      · rw [convert_reject_inter b W H reg h1] at h; exact absurd h (by simp)
      by_cases h2 : area_frac b W H reg < 1/10
      · rw [convert_reject_small b W H reg h1 h2] at h; exact absurd h (by simp)
      · rw [convert_accept b W H reg h1 h2]
        simp [ge_iff_le]
  · intro b W H reg hbx hby hcx1 hcx2 hcy1 hcy2
    have hclip1 : (clipBox (boxPix b W H) reg).x1 = (boxPix b W H).x1 :=
      max_eq_left hcx1
    have hclip2 : (clipBox (boxPix b W H) reg).x2 = (boxPix b W H).x2 :=
      min_eq_left hcx2
    have hclip3 : (clipBox (boxPix b W H) reg).y1 = (boxPix b W H).y1 :=
      max_eq_left hcy1
    have hclip4 : (clipBox (boxPix b W H) reg).y2 = (boxPix b W H).y2 :=
      min_eq_left hcy2
    have hbw : (boxPix b W H).x2 - (boxPix b W H).x1 = b.w * W := by
      simp only [boxPix]; ring
    have hbh : (boxPix b W H).y2 - (boxPix b W H).y1 = b.h * H := by
      simp only [boxPix]; ring
    have harea_pos : 0 < b.w * W * (b.h * H) := by
      have := sub_pos.mpr hbx
      have := sub_pos.mpr hby
      rw [hbw] at *
      rw [hbh] at *
      positivity
    have hfrac : area_frac b W H reg = 1 := by
      simp only [area_frac]
      rw [if_pos harea_pos, hclip1, hclip2, hclip3, hclip4, hbw, hbh,
        div_self (ne_of_gt harea_pos)]
    have h1 : ¬((clipBox (boxPix b W H) reg).x1 ≥ (clipBox (boxPix b W H) reg).x2 ∨
        (clipBox (boxPix b W H) reg).y1 ≥ (clipBox (boxPix b W H) reg).y2) := by
      rw [hclip1, hclip2, hclip3, hclip4]
      push_neg
      exact ⟨hbx, hby⟩
    have h2 : ¬(area_frac b W H reg < 1/10) := by rw [hfrac]; norm_num
    rw [convert_accept b W H reg h1 h2]
    have hrw : (0 : ℚ) < reg.x2 - reg.x1 := by
      have : (boxPix b W H).x1 < reg.x2 := lt_of_lt_of_le hbx hcx2
      linarith [lt_of_le_of_lt hcx1 this]
    have hrh : (0 : ℚ) < reg.y2 - reg.y1 := by
      have : (boxPix b W H).y1 < reg.y2 := lt_of_lt_of_le hby hcy2
      linarith [lt_of_le_of_lt hcy1 this]
    refine ⟨rfl, by rw [hfrac]; norm_num, ?_⟩
    rw [hclip1, hclip2, hclip3, hclip4]
    set bx1 := (boxPix b W H).x1
    set bx2 := (boxPix b W H).x2
    set by1 := (boxPix b W H).y1
    set by2 := (boxPix b W H).y2
    have hxc : clamp01 ((bx1 - reg.x1 + (bx2 - reg.x1)) / 2 / (reg.x2 - reg.x1)) =
        (bx1 - reg.x1 + (bx2 - reg.x1)) / 2 / (reg.x2 - reg.x1) := by
      apply clamp01_of_mem
      · apply div_nonneg (div_nonneg (by linarith) (by norm_num)) hrw.le
      · rw [div_le_one hrw]
        linarith
    have hyc : clamp01 ((by1 - reg.y1 + (by2 - reg.y1)) / 2 / (reg.y2 - reg.y1)) =
        (by1 - reg.y1 + (by2 - reg.y1)) / 2 / (reg.y2 - reg.y1) := by
      apply clamp01_of_mem
      · apply div_nonneg (div_nonneg (by linarith) (by norm_num)) hrh.le
      · rw [div_le_one hrh]
        linarith
    have hwv : clamp01 ((bx2 - reg.x1 - (bx1 - reg.x1)) / (reg.x2 - reg.x1)) =
        (bx2 - reg.x1 - (bx1 - reg.x1)) / (reg.x2 - reg.x1) := by
      apply clamp01_of_mem
      · apply div_nonneg (by linarith) hrw.le
      · rw [div_le_one hrw]
        linarith
    have hhv : clamp01 ((by2 - reg.y1 - (by1 - reg.y1)) / (reg.y2 - reg.y1)) =
        (by2 - reg.y1 - (by1 - reg.y1)) / (reg.y2 - reg.y1) := by
      apply clamp01_of_mem
      · apply div_nonneg (by linarith) hrh.le
      · rw [div_le_one hrh]
        linarith
    refine ⟨_, rfl, ?_, ?_, ?_, ?_⟩ <;>
      simp only [hxc, hyc, hwv, hhv] <;>
      field_simp <;>
      ring

/-- C2 witness: the box `(48,48,52,52)` inside region `(0,0,55,55)`. -/
theorem c2_full_containment_witness :
    (boxPix ⟨1/2, 1/2, 1/25, 1/25⟩ 100 100).x1 <
      (boxPix ⟨1/2, 1/2, 1/25, 1/25⟩ 100 100).x2 ∧
    (convert_bbox_to_region ⟨1/2, 1/2, 1/25, 1/25⟩ 100 100 ⟨0, 0, 55, 55⟩).1 = true ∧
    (convert_bbox_to_region ⟨1/2, 1/2, 1/25, 1/25⟩ 100 100 ⟨0, 0, 55, 55⟩).2.2 = true ∧
    ∃ nb, (convert_bbox_to_region ⟨1/2, 1/2, 1/25, 1/25⟩ 100 100
        ⟨0, 0, 55, 55⟩).2.1 = some nb ∧
      (nb.xc - nb.w / 2) * ((55 : ℚ) - 0) =
        (boxPix ⟨1/2, 1/2, 1/25, 1/25⟩ 100 100).x1 - 0 ∧
      (nb.xc + nb.w / 2) * ((55 : ℚ) - 0) =
        (boxPix ⟨1/2, 1/2, 1/25, 1/25⟩ 100 100).x2 - 0 ∧
      (nb.yc - nb.h / 2) * ((55 : ℚ) - 0) =
        (boxPix ⟨1/2, 1/2, 1/25, 1/25⟩ 100 100).y1 - 0 ∧
      (nb.yc + nb.h / 2) * ((55 : ℚ) - 0) =
        (boxPix ⟨1/2, 1/2, 1/25, 1/25⟩ 100 100).y2 - 0 :=
  ⟨by norm_num [boxPix],
   c2_full_containment.2 ⟨1/2, 1/2, 1/25, 1/25⟩ 100 100 ⟨0, 0, 55, 55⟩
     (by norm_num [boxPix]) (by norm_num [boxPix]) (by norm_num [boxPix])
     (by norm_num [boxPix]) (by norm_num [boxPix]) (by norm_num [boxPix])⟩

/-- The loop step is the identity on a rejected annotation. -/
lemma convertStep_of_reject (W H : ℚ) (reg : RectQ)
    (acc : List (ℤ × YoloBox) × Bool) (ann : ℤ × YoloBox)
    (h : convert_bbox_to_region ann.2 W H reg = (false, none, false)) :
    convertStep W H reg acc ann = acc := by
  delta convertStep
  rw [h]

/-- The loop step appends the re-projected annotation and ORs the flag on
an accepted one. -/
lemma convertStep_of_accept (W H : ℚ) (reg : RectQ)
    (acc : List (ℤ × YoloBox) × Bool) (ann : ℤ × YoloBox)
    (nb : YoloBox) (full : Bool)
    (h : convert_bbox_to_region ann.2 W H reg = (true, some nb, full)) :
    convertStep W H reg acc ann = (acc.1 ++ [(ann.1, nb)], acc.2 || full) := by
  delta convertStep
  rw [h]

/-- Membership in the accumulated annotation list of the per-region loop:
every entry comes from the initial accumulator or from an accepted
re-projection of an input annotation. -/
lemma convertAnns_mem_aux (W H : ℚ) (reg : RectQ) :
    ∀ (anns : List (ℤ × YoloBox)) (acc : List (ℤ × YoloBox) × Bool)
      (p : ℤ × YoloBox), p ∈ (anns.foldl (convertStep W H reg) acc).1 →
      p ∈ acc.1 ∨ ∃ a ∈ anns, (convert_bbox_to_region a.2 W H reg).2.1 = some p.2 := by
  intro anns
  induction anns with
  | nil => intro acc p hp; exact Or.inl hp
  | cons a t ih =>
    intro acc p hp
    rw [List.foldl_cons] at hp
    rcases ih (convertStep W H reg acc a) p hp with hacc | ⟨a', ha', hnb⟩
    · rcases convert_shape a.2 W H reg with h | ⟨nb, full, h⟩
      · rw [convertStep_of_reject W H reg acc a h] at hacc
        exact Or.inl hacc
      · rw [convertStep_of_accept W H reg acc a nb full h] at hacc
        rcases List.mem_append.mp hacc with hl | hr
        · exact Or.inl hl
        · rcases List.mem_singleton.mp hr with rfl
          exact Or.inr ⟨a, List.mem_cons_self a t, by rw [h]⟩
    · exact Or.inr ⟨a', List.mem_cons_of_mem a ha', hnb⟩

/-- The `has_full_bbox` flag of the per-region loop is set iff the initial
flag was set or some input annotation is accepted with `is_full`. -/
lemma convertAnns_flag_aux (W H : ℚ) (reg : RectQ) :
    ∀ (anns : List (ℤ × YoloBox)) (acc : List (ℤ × YoloBox) × Bool),
      ((anns.foldl (convertStep W H reg) acc).2 = true ↔
        acc.2 = true ∨ ∃ a ∈ anns,
          (convert_bbox_to_region a.2 W H reg).1 = true ∧
          (convert_bbox_to_region a.2 W H reg).2.2 = true) := by
  intro anns
  induction anns with
  | nil => intro acc; simp
  | cons a t ih =>
    intro acc
    rw [List.foldl_cons, ih (convertStep W H reg acc a)]
    rcases convert_shape a.2 W H reg with h | ⟨nb, full, h⟩
    · rw [convertStep_of_reject W H reg acc a h]
      simp only [List.mem_cons]
      constructor
      · rintro (hacc | ⟨a', ha', hconv⟩)
        · exact Or.inl hacc
        · exact Or.inr ⟨a', Or.inr ha', hconv⟩
      · rintro (hacc | ⟨a', (rfl | ha'), hconv⟩)
        · exact Or.inl hacc
        · rw [h] at hconv
          exact absurd hconv.1 (by simp)
        · exact Or.inr ⟨a', ha', hconv⟩
    · rw [convertStep_of_accept W H reg acc a nb full h]
      simp only [Bool.or_eq_true, List.mem_cons]
      constructor
      · rintro (⟨hacc | hfull⟩ | ⟨a', ha', hconv⟩)
        · exact Or.inl hacc
        · exact Or.inr ⟨a, Or.inl rfl, by rw [h]; exact ⟨rfl, hfull⟩⟩
        · exact Or.inr ⟨a', Or.inr ha', hconv⟩
      · rintro (hacc | ⟨a', (rfl | ha'), hconv⟩)
        · exact Or.inl (Or.inl hacc)
        · rw [h] at hconv
          exact Or.inl (Or.inr hconv.2)
        · exact Or.inr ⟨a', ha', hconv⟩

/-- C4: under a positive-extent region, every annotation the reprojector
emits has all four normalized fields in `[0, 1]` and strictly positive
width and height; consequently every annotation in a tile's label list
does too. -/
theorem c4_emitted_fields_in_range :
    (∀ (b : YoloBox) (W H : ℚ) (reg : RectQ), reg.x1 < reg.x2 → reg.y1 < reg.y2 →
      ∀ nb, (convert_bbox_to_region b W H reg).2.1 = some nb →
        0 ≤ nb.xc ∧ nb.xc ≤ 1 ∧ 0 ≤ nb.yc ∧ nb.yc ≤ 1 ∧
        0 < nb.w ∧ nb.w ≤ 1 ∧ 0 < nb.h ∧ nb.h ≤ 1) ∧
    (∀ (anns : List (ℤ × YoloBox)) (W H : ℚ) (reg : RectQ),
      reg.x1 < reg.x2 → reg.y1 < reg.y2 →
      ∀ p ∈ (convertAnns anns W H reg).1,
        0 ≤ p.2.xc ∧ p.2.xc ≤ 1 ∧ 0 ≤ p.2.yc ∧ p.2.yc ≤ 1 ∧
        0 < p.2.w ∧ p.2.w ≤ 1 ∧ 0 < p.2.h ∧ p.2.h ≤ 1) := by
  have main : ∀ (b : YoloBox) (W H : ℚ) (reg : RectQ),
      reg.x1 < reg.x2 → reg.y1 < reg.y2 →
      ∀ nb, (convert_bbox_to_region b W H reg).2.1 = some nb →
        0 ≤ nb.xc ∧ nb.xc ≤ 1 ∧ 0 ≤ nb.yc ∧ nb.yc ≤ 1 ∧
        0 < nb.w ∧ nb.w ≤ 1 ∧ 0 < nb.h ∧ nb.h ≤ 1 := by
    intro b W H reg hx hy nb hnb
    by_cases h1 : (clipBox (boxPix b W H) reg).x1 ≥ (clipBox (boxPix b W H) reg).x2 ∨
        (clipBox (boxPix b W H) reg).y1 ≥ (clipBox (boxPix b W H) reg).y2
    · rw [convert_reject_inter b W H reg h1] at hnb
      exact absurd hnb (by simp)
    by_cases h2 : area_frac b W H reg < 1/10
    · rw [convert_reject_small b W H reg h1 h2] at hnb
      exact absurd hnb (by simp)
    rw [convert_accept b W H reg h1 h2] at hnb
    rcases Option.some.injEq _ _ ▸ hnb with rfl
    push_neg at h1
    refine ⟨clamp01_nonneg _, clamp01_le_one _, clamp01_nonneg _, clamp01_le_one _,
      ?_, clamp01_le_one _, ?_, clamp01_le_one _⟩
    · exact clamp01_pos _ (div_pos (by linarith [h1.1]) (by linarith))
    · exact clamp01_pos _ (div_pos (by linarith [h1.2]) (by linarith))
  refine ⟨main, fun anns W H reg hx hy p hp => ?_⟩
  rcases convertAnns_mem_aux W H reg anns ([], false) p hp with hnil | ⟨a, _, hnb⟩
  · exact absurd hnil (List.not_mem_nil p)
  · exact main a.2 W H reg hx hy p.2 hnb

/-- C4 witness: the accepted scenario-2 annotation on region
`(0,0,55,55)`. -/
theorem c4_emitted_fields_in_range_witness :
    (0 : ℚ) < 55 ∧
    ∀ p ∈ (convertAnns [((0 : ℤ), ⟨1/2, 1/2, 1/25, 1/25⟩)] 100 100
        ⟨0, 0, 55, 55⟩).1,
      0 ≤ p.2.xc ∧ p.2.xc ≤ 1 ∧ 0 ≤ p.2.yc ∧ p.2.yc ≤ 1 ∧
      0 < p.2.w ∧ p.2.w ≤ 1 ∧ 0 < p.2.h ∧ p.2.h ≤ 1 :=
  ⟨by norm_num,
   c4_emitted_fields_in_range.2 [((0 : ℤ), ⟨1/2, 1/2, 1/25, 1/25⟩)] 100 100
     ⟨0, 0, 55, 55⟩ (by norm_num) (by norm_num)⟩

/-- Evaluation of the reprojector on End-to-end scenario 2: annotation
`(xc=0.5, yc=0.5, w=0.04, h=0.04)` on a 100×100 image against region
`(0,0,55,55)`.  The normalized output is `(50/55, 50/55, 4/55, 4/55)`,
i.e. `(10/11, 10/11, 4/55, 4/55)`. -/
lemma convert_scenario2 :
    convert_bbox_to_region ⟨1/2, 1/2, 1/25, 1/25⟩ 100 100 ⟨0, 0, 55, 55⟩ =
      (true, some ⟨10/11, 10/11, 4/55, 4/55⟩, true) := by
  have h1 : ¬((clipBox (boxPix ⟨1/2, 1/2, 1/25, 1/25⟩ 100 100) ⟨0, 0, 55, 55⟩).x1 ≥
        (clipBox (boxPix ⟨1/2, 1/2, 1/25, 1/25⟩ 100 100) ⟨0, 0, 55, 55⟩).x2 ∨
      (clipBox (boxPix ⟨1/2, 1/2, 1/25, 1/25⟩ 100 100) ⟨0, 0, 55, 55⟩).y1 ≥
        (clipBox (boxPix ⟨1/2, 1/2, 1/25, 1/25⟩ 100 100) ⟨0, 0, 55, 55⟩).y2) := by
    norm_num [clipBox, boxPix]
  have h2 : ¬(area_frac ⟨1/2, 1/2, 1/25, 1/25⟩ 100 100 ⟨0, 0, 55, 55⟩ < 1/10) := by
    norm_num [area_frac, clipBox, boxPix]
  rw [convert_accept _ _ _ _ h1 h2]
  norm_num [area_frac, clipBox, boxPix, clamp01, Prod.ext_iff]

/-- The straddling annotation used for the `require_full_bbox` scenario:
absolute box `(40,10,60,20)` on a 100×100 image, crossing the vertical
split band but missing the bottom half entirely. -/
def straddleAnn : ℤ × YoloBox := (0, ⟨1/2, 3/20, 1/5, 1/10⟩)

/-- The straddling annotation is rejected on the bottom_left region. -/
lemma straddle_bl :
    convert_bbox_to_region straddleAnn.2 100 100 ⟨0, 45, 55, 100⟩ =
      (false, none, false) := by
  apply convert_reject_inter
  right
  norm_num [straddleAnn, clipBox, boxPix]

/-- The straddling annotation is rejected on the bottom_right region. -/
lemma straddle_br :
    convert_bbox_to_region straddleAnn.2 100 100 ⟨45, 45, 100, 100⟩ =
      (false, none, false) := by
  apply convert_reject_inter
  right
  norm_num [straddleAnn, clipBox, boxPix]

/-- The straddling annotation is accepted but not full on top_left. -/
lemma straddle_tl :
    convert_bbox_to_region straddleAnn.2 100 100 ⟨0, 0, 55, 55⟩ =
      (true, some ⟨19/22, 3/11, 3/11, 2/11⟩, false) := by
  have h1 : ¬((clipBox (boxPix straddleAnn.2 100 100) ⟨0, 0, 55, 55⟩).x1 ≥
        (clipBox (boxPix straddleAnn.2 100 100) ⟨0, 0, 55, 55⟩).x2 ∨
      (clipBox (boxPix straddleAnn.2 100 100) ⟨0, 0, 55, 55⟩).y1 ≥
        (clipBox (boxPix straddleAnn.2 100 100) ⟨0, 0, 55, 55⟩).y2) := by
    norm_num [straddleAnn, clipBox, boxPix]
  have h2 : ¬(area_frac straddleAnn.2 100 100 ⟨0, 0, 55, 55⟩ < 1/10) := by
    norm_num [straddleAnn, area_frac, clipBox, boxPix]
  rw [convert_accept _ _ _ _ h1 h2]
  norm_num [straddleAnn, area_frac, clipBox, boxPix, clamp01, Prod.ext_iff]

/-- The straddling annotation is accepted but not full on top_right. -/
lemma straddle_tr :
    convert_bbox_to_region straddleAnn.2 100 100 ⟨45, 0, 100, 55⟩ =
      (true, some ⟨3/22, 3/11, 3/11, 2/11⟩, false) := by
  have h1 : ¬((clipBox (boxPix straddleAnn.2 100 100) ⟨45, 0, 100, 55⟩).x1 ≥
        (clipBox (boxPix straddleAnn.2 100 100) ⟨45, 0, 100, 55⟩).x2 ∨
      (clipBox (boxPix straddleAnn.2 100 100) ⟨45, 0, 100, 55⟩).y1 ≥
        (clipBox (boxPix straddleAnn.2 100 100) ⟨45, 0, 100, 55⟩).y2) := by
    norm_num [straddleAnn, clipBox, boxPix]
  have h2 : ¬(area_frac straddleAnn.2 100 100 ⟨45, 0, 100, 55⟩ < 1/10) := by
    norm_num [straddleAnn, area_frac, clipBox, boxPix]
  rw [convert_accept _ _ _ _ h1 h2]
  norm_num [straddleAnn, area_frac, clipBox, boxPix, clamp01, Prod.ext_iff]

/-- Tile gate results for the straddle scenario, one per region. -/
lemma straddle_tile_tl :
    tileForRegion true [straddleAnn] 100 100 ⟨0, 0, 55, 55⟩ = none := by
  have e : convertAnns [straddleAnn] 100 100 ⟨0, 0, 55, 55⟩ =
      ([(0, ⟨19/22, 3/11, 3/11, 2/11⟩)], false) := by
    rw [convertAnns, List.foldl_cons,
      convertStep_of_accept _ _ _ _ _ _ _ straddle_tl, List.foldl_nil]
    rfl
  rw [tileForRegion, e]
  rfl

lemma straddle_tile_tr :
    tileForRegion true [straddleAnn] 100 100 ⟨45, 0, 100, 55⟩ = none := by
  have e : convertAnns [straddleAnn] 100 100 ⟨45, 0, 100, 55⟩ =
      ([(0, ⟨3/22, 3/11, 3/11, 2/11⟩)], false) := by
    rw [convertAnns, List.foldl_cons,
      convertStep_of_accept _ _ _ _ _ _ _ straddle_tr, List.foldl_nil]
    rfl
  rw [tileForRegion, e]
  rfl

lemma straddle_anns_bl :
    convertAnns [straddleAnn] 100 100 ⟨0, 45, 55, 100⟩ = ([], false) := by
  rw [convertAnns, List.foldl_cons,
    convertStep_of_reject _ _ _ _ _ straddle_bl, List.foldl_nil]

lemma straddle_tile_bl :
    tileForRegion true [straddleAnn] 100 100 ⟨0, 45, 55, 100⟩ = none := by
  rw [tileForRegion, straddle_anns_bl]
  rfl

lemma straddle_tile_br :
    tileForRegion true [straddleAnn] 100 100 ⟨45, 45, 100, 100⟩ = none := by
  have e : convertAnns [straddleAnn] 100 100 ⟨45, 45, 100, 100⟩ = ([], false) := by
    rw [convertAnns, List.foldl_cons,
      convertStep_of_reject _ _ _ _ _ straddle_br, List.foldl_nil]
  rw [tileForRegion, e]
  rfl

/-- C1 counterexample: with `require_full_bbox = true` on a 100×100 image
whose only annotation straddles the two top quadrants (full in neither),
the bottom_left region accepts no annotation at all, yet NO tile is
written — in particular no empty-labelled bottom_left tile, contradicting
the claim that an annotation-free quadrant is still written. -/
theorem c1_counterexample :
    convertAnns [straddleAnn] 100 100 ⟨0, 45, 55, 100⟩ = ([], false) ∧
    split_image_and_labels true false (1/10) 100 100 [straddleAnn] = [] := by
  refine ⟨straddle_anns_bl, ?_⟩
  rw [split_image_and_labels, regions_100_100]
  simp only [List.filterMap_cons, List.filterMap_nil]
  norm_num [straddle_tile_tl, straddle_tile_tr, straddle_tile_bl, straddle_tile_br]

/-- C1 (amended): with `require_full_bbox = true`, a tile is skipped
(nothing written, not counted) iff no annotation is accepted for it with
`is_full = true`; in particular a region with no annotations at all is
also skipped.  Without the flag, every tile is written, an empty accepted
list yielding an empty label file. -/
theorem c1_require_full_gate :
    (∀ (anns : List (ℤ × YoloBox)) (W H : ℚ) (reg : RectQ),
      (tileForRegion true anns W H reg = none ↔
        ¬∃ a ∈ anns, (convert_bbox_to_region a.2 W H reg).1 = true ∧
          (convert_bbox_to_region a.2 W H reg).2.2 = true)) ∧
    (∀ (W H : ℚ) (reg : RectQ), tileForRegion true [] W H reg = none) ∧
    (∀ (anns : List (ℤ × YoloBox)) (W H : ℚ) (reg : RectQ),
      tileForRegion false anns W H reg = some (convertAnns anns W H reg).1) := by
  refine ⟨?_, ?_, ?_⟩
  · intro anns W H reg
    have hflag : ((convertAnns anns W H reg).2 = true ↔
        ∃ a ∈ anns, (convert_bbox_to_region a.2 W H reg).1 = true ∧
          (convert_bbox_to_region a.2 W H reg).2.2 = true) := by
      rw [convertAnns, convertAnns_flag_aux W H reg anns ([], false)]
      simp
    rw [tileForRegion]
    cases hb : (convertAnns anns W H reg).2 with
    | false =>
      rw [if_pos (by simp)]
      exact ⟨fun _ hex => absurd (hflag.mpr hex) (by simp [hb]),
             fun _ => rfl⟩
    | true =>
      rw [if_neg (by simp)]
      exact ⟨fun h => absurd h (by simp),
             fun hnex => absurd (hflag.mp hb) hnex⟩
  · intro W H reg
    rw [tileForRegion]
    rfl
  · intro anns W H reg
    rw [tileForRegion]
    simp

/-- C7 counterexample: in scenario 2 the reprojected normalized x-center
is `10/11 = 50/55`, not approximately `48/55` — the difference is `2/55`,
far beyond float tolerance. -/
theorem c7_counterexample :
    (convert_bbox_to_region ⟨1/2, 1/2, 1/25, 1/25⟩ 100 100 ⟨0, 0, 55, 55⟩).2.1 =
      some ⟨10/11, 10/11, 4/55, 4/55⟩ ∧
    (10/11 : ℚ) ≠ 48/55 ∧ ¬(|(10/11 : ℚ) - 48/55| < 1/100) := by
  refine ⟨by rw [convert_scenario2], by norm_num, ?_⟩
  rw [show (10/11 : ℚ) - 48/55 = 2/55 by norm_num, abs_of_pos (by norm_num)]
  norm_num

/-- C7 (amended): scenario 2 — annotation `(0.5, 0.5, 0.04, 0.04)` on a
100×100 image against region `(0,0,55,55)` — is accepted with
`is_full = true` and reprojected normalized box exactly
`(50/55, 50/55, 4/55, 4/55)`; the spec's `48/55` values are the box's
top-left corner, not its YOLO center. -/
theorem c7_scenario2 :
    convert_bbox_to_region ⟨1/2, 1/2, 1/25, 1/25⟩ 100 100 ⟨0, 0, 55, 55⟩ =
      (true, some ⟨50/55, 50/55, 4/55, 4/55⟩, true) := by
  rw [convert_scenario2]
  norm_num

/-- A pixel `(px, py)` lies inside a region, with the half-open crop
semantics of `img[y1:y2, x1:x2]`. -/
def coversPixel (reg : Region) (px py : ℤ) : Prop :=
  reg.x1 ≤ px ∧ px < reg.x2 ∧ reg.y1 ≤ py ∧ py < reg.y2

/-- C5: for positive `W`, `H` and `r ∈ [0, 0.5]`, the Region Calculator
returns exactly the four quadrant regions of the spec's formula
(`overlap_w = floor(W*r)`, splits `mid ± floor(overlap/2)`), in the fixed
order `top_left, top_right, bottom_left, bottom_right`; in particular for
`W = H = 100`, `r = 0.1` it returns `(0,0,55,55)`, `(45,0,100,55)`,
`(0,45,55,100)`, `(45,45,100,100)`. -/
theorem c5_region_calculator_formula :
    (∀ (W H : ℤ) (r : ℚ), 0 < W → 0 < H → 0 ≤ r → r ≤ 1/2 →
      calculate_split_regions W H r false =
        [⟨"top_left", 0, 0,
          W.fdiv 2 + (⌊(W : ℚ) * r⌋).fdiv 2, H.fdiv 2 + (⌊(H : ℚ) * r⌋).fdiv 2⟩,
         ⟨"top_right", W.fdiv 2 - (⌊(W : ℚ) * r⌋).fdiv 2, 0,
          W, H.fdiv 2 + (⌊(H : ℚ) * r⌋).fdiv 2⟩,
         ⟨"bottom_left", 0, H.fdiv 2 - (⌊(H : ℚ) * r⌋).fdiv 2,
          W.fdiv 2 + (⌊(W : ℚ) * r⌋).fdiv 2, H⟩,
         ⟨"bottom_right", W.fdiv 2 - (⌊(W : ℚ) * r⌋).fdiv 2,
          H.fdiv 2 - (⌊(H : ℚ) * r⌋).fdiv 2, W, H⟩]) ∧
    calculate_split_regions 100 100 (1/10) false =
      [⟨"top_left", 0, 0, 55, 55⟩, ⟨"top_right", 45, 0, 100, 55⟩,
       ⟨"bottom_left", 0, 45, 55, 100⟩, ⟨"bottom_right", 45, 45, 100, 100⟩] := by
  constructor
  · intro W H r hW hH hr0 _
    have hWr : (0 : ℚ) ≤ (W : ℚ) * r :=
      mul_nonneg (by exact_mod_cast hW.le) hr0
    have hHr : (0 : ℚ) ≤ (H : ℚ) * r :=
      mul_nonneg (by exact_mod_cast hH.le) hr0
    simp only [calculate_split_regions, pyInt_of_nonneg _ hWr, pyInt_of_nonneg _ hHr,
      Bool.false_eq_true, if_false]
  · exact regions_100_100

/-- C5 witness at `W = H = 100`, `r = 1/10`. -/
theorem c5_region_calculator_formula_witness :
    (0 : ℤ) < 100 ∧ (0 : ℚ) ≤ 1/10 ∧ (1/10 : ℚ) ≤ 1/2 ∧
    calculate_split_regions 100 100 (1/10) false =
      [⟨"top_left", 0, 0,
        Int.fdiv 100 2 + (⌊(100 : ℤ) * (1/10 : ℚ)⌋).fdiv 2,
        Int.fdiv 100 2 + (⌊(100 : ℤ) * (1/10 : ℚ)⌋).fdiv 2⟩,
       ⟨"top_right", Int.fdiv 100 2 - (⌊(100 : ℤ) * (1/10 : ℚ)⌋).fdiv 2, 0,
        100, Int.fdiv 100 2 + (⌊(100 : ℤ) * (1/10 : ℚ)⌋).fdiv 2⟩,
       ⟨"bottom_left", 0, Int.fdiv 100 2 - (⌊(100 : ℤ) * (1/10 : ℚ)⌋).fdiv 2,
        Int.fdiv 100 2 + (⌊(100 : ℤ) * (1/10 : ℚ)⌋).fdiv 2, 100⟩,
       ⟨"bottom_right", Int.fdiv 100 2 - (⌊(100 : ℤ) * (1/10 : ℚ)⌋).fdiv 2,
        Int.fdiv 100 2 - (⌊(100 : ℤ) * (1/10 : ℚ)⌋).fdiv 2, 100, 100⟩] :=
  ⟨by norm_num, by norm_num, by norm_num,
   c5_region_calculator_formula.1 100 100 (1/10)
     (by norm_num) (by norm_num) (by norm_num) (by norm_num)⟩

/-- C6: for positive `W`, `H` and `r ∈ [0, 0.5]`, every pixel of the
`[0,W)×[0,H)` image grid is covered by at least one of the quadrant
regions produced by the Region Calculator (in particular in the
no-overlap case `r = 0`). -/
theorem c6_quadrants_cover_image (W H : ℤ) (r : ℚ) (gc : Bool)
    (hW : 0 < W) (hH : 0 < H) (hr0 : 0 ≤ r) (hr1 : r ≤ 1/2)
    (px py : ℤ) (hx0 : 0 ≤ px) (hx1 : px < W) (hy0 : 0 ≤ py) (hy1 : py < H) :
    ∃ reg ∈ calculate_split_regions W H r gc, coversPixel reg px py := by
  have how : 0 ≤ pyInt ((W : ℚ) * r) := by
    rw [pyInt_of_nonneg _ (mul_nonneg (by exact_mod_cast hW.le) hr0)]
    exact Int.floor_nonneg.mpr (mul_nonneg (by exact_mod_cast hW.le) hr0)
  have hoh : 0 ≤ pyInt ((H : ℚ) * r) := by
    rw [pyInt_of_nonneg _ (mul_nonneg (by exact_mod_cast hH.le) hr0)]
    exact Int.floor_nonneg.mpr (mul_nonneg (by exact_mod_cast hH.le) hr0)
  have ha : 0 ≤ (pyInt ((W : ℚ) * r)).fdiv 2 := Int.fdiv_nonneg how (by norm_num)
  have hb : 0 ≤ (pyInt ((H : ℚ) * r)).fdiv 2 := Int.fdiv_nonneg hoh (by norm_num)
  simp only [calculate_split_regions]
  set a := (pyInt ((W : ℚ) * r)).fdiv 2 with ha_def
  set b := (pyInt ((H : ℚ) * r)).fdiv 2 with hb_def
  set mx := W.fdiv 2 with hmx
  set my := H.fdiv 2 with hmy
  have hmem : ∀ reg : Region,
      reg ∈ ([⟨"top_left", 0, 0, mx + a, my + b⟩,
              ⟨"top_right", mx - a, 0, W, my + b⟩,
              ⟨"bottom_left", 0, my - b, mx + a, H⟩,
              ⟨"bottom_right", mx - a, my - b, W, H⟩] : List Region) →
      coversPixel reg px py →
      ∃ reg' ∈ (if gc = true then
          ([⟨"top_left", 0, 0, mx + a, my + b⟩,
            ⟨"top_right", mx - a, 0, W, my + b⟩,
            ⟨"bottom_left", 0, my - b, mx + a, H⟩,
            ⟨"bottom_right", mx - a, my - b, W, H⟩] : List Region) ++
          [⟨"center", max 0 (mx - (mx + a).fdiv 2), max 0 (my - (my + b).fdiv 2),
            min W (mx - (mx + a).fdiv 2 + (mx + a)),
            min H (my - (my + b).fdiv 2 + (my + b))⟩]
        else
          [⟨"top_left", 0, 0, mx + a, my + b⟩,
           ⟨"top_right", mx - a, 0, W, my + b⟩,
           ⟨"bottom_left", 0, my - b, mx + a, H⟩,
           ⟨"bottom_right", mx - a, my - b, W, H⟩]), coversPixel reg' px py := by
    intro reg hreg hcov
    cases gc with
    | false => exact ⟨reg, by simpa using hreg, hcov⟩
    | true =>
      rw [if_pos rfl]
      exact ⟨reg, List.mem_append_left _ hreg, hcov⟩
  rcases lt_or_le px (mx + a) with hpx | hpx <;>
    rcases lt_or_le py (my + b) with hpy | hpy
  · exact hmem ⟨"top_left", 0, 0, mx + a, my + b⟩ (by simp)
      ⟨hx0, hpx, hy0, hpy⟩
  · exact hmem ⟨"bottom_left", 0, my - b, mx + a, H⟩ (by simp)
      ⟨hx0, hpx, show my - b ≤ py by omega, hy1⟩
  · exact hmem ⟨"top_right", mx - a, 0, W, my + b⟩ (by simp)
      ⟨show mx - a ≤ px by omega, hx1, hy0, hpy⟩
  · exact hmem ⟨"bottom_right", mx - a, my - b, W, H⟩ (by simp)
      ⟨show mx - a ≤ px by omega, hx1, show my - b ≤ py by omega, hy1⟩

/-- C6 witness at `W = H = 100`, `r = 1/10`, pixel `(0, 0)`. -/
theorem c6_quadrants_cover_image_witness :
    (0 : ℤ) < 100 ∧ (0 : ℚ) ≤ 1/10 ∧ (1/10 : ℚ) ≤ 1/2 ∧ (0 : ℤ) ≤ 0 ∧ (0 : ℤ) < 100 ∧
    ∃ reg ∈ calculate_split_regions 100 100 (1/10) false, coversPixel reg 0 0 :=
  ⟨by norm_num, by norm_num, by norm_num, le_refl 0, by norm_num,
   c6_quadrants_cover_image 100 100 (1/10) false (by norm_num) (by norm_num)
     (by norm_num) (by norm_num) 0 0 (le_refl 0) (by norm_num) (le_refl 0) (by norm_num)⟩

/-- C10: the reprojector is total under the positive-extent region
precondition — the instrumented variant (which returns `none` if any
executed non-constant division divides by zero) agrees with the plain
function, so no division by zero is executed; in particular a zero
original area leads to rejection (through the guarded `area_ratio`),
never to a division error. -/
theorem c10_reprojector_total :
    (∀ (b : YoloBox) (W H : ℚ) (reg : RectQ), reg.x1 < reg.x2 → reg.y1 < reg.y2 →
      convert_bbox_to_region_checked b W H reg =
        some (convert_bbox_to_region b W H reg)) ∧
    (∀ (b : YoloBox) (W H : ℚ) (reg : RectQ),
      b.w * W * (b.h * H) = 0 → (convert_bbox_to_region b W H reg).1 = false) := by
  constructor
  · intro b W H reg hx hy
    have hrw : reg.x2 - reg.x1 ≠ 0 := ne_of_gt (sub_pos.mpr hx)
    have hrh : reg.y2 - reg.y1 ≠ 0 := ne_of_gt (sub_pos.mpr hy)
    by_cases h1 : (clipBox (boxPix b W H) reg).x1 ≥ (clipBox (boxPix b W H) reg).x2 ∨
        (clipBox (boxPix b W H) reg).y1 ≥ (clipBox (boxPix b W H) reg).y2
    · rw [convert_reject_inter b W H reg h1]
      simp only [convert_bbox_to_region_checked]
      rw [if_pos h1]
      rfl
    · by_cases h0 : b.w * W * (b.h * H) > 0
      · have hfr : area_frac b W H reg =
            ((clipBox (boxPix b W H) reg).x2 - (clipBox (boxPix b W H) reg).x1) *
              ((clipBox (boxPix b W H) reg).y2 - (clipBox (boxPix b W H) reg).y1) /
              (b.w * W * (b.h * H)) := by
          simp only [area_frac]
          rw [if_pos h0]
        by_cases h2 : area_frac b W H reg < 1/10
        · rw [convert_reject_small b W H reg h1 h2]
          rw [hfr] at h2
          simp only [convert_bbox_to_region_checked]
          rw [if_neg h1, if_pos h0, checkedDiv, if_neg (ne_of_gt h0)]
          simp only [Option.pure_def, Option.bind_eq_bind, Option.some_bind]
          rw [if_pos h2]
        · rw [convert_accept b W H reg h1 h2]
          rw [hfr] at h2
          simp only [convert_bbox_to_region_checked]
          rw [if_neg h1, if_pos h0, checkedDiv, if_neg (ne_of_gt h0)]
          simp only [Option.pure_def, Option.bind_eq_bind, Option.some_bind]
          rw [if_neg h2, checkedDiv, if_neg hrw, checkedDiv, if_neg hrh,
            checkedDiv, if_neg hrw, checkedDiv, if_neg hrh]
          simp only [Option.pure_def, Option.bind_eq_bind, Option.some_bind]
          rw [hfr]
      · have hfr0 : area_frac b W H reg = 0 := by
          simp only [area_frac]
          rw [if_neg h0]
        rw [convert_reject_small b W H reg h1 (by rw [hfr0]; norm_num)]
        simp only [convert_bbox_to_region_checked]
        rw [if_neg h1, if_neg h0]
        simp only [Option.pure_def, Option.bind_eq_bind, Option.some_bind]
        rw [if_pos (by norm_num : (0 : ℚ) < 1/10)]
  · intro b W H reg h0
    have hfr0 : area_frac b W H reg = 0 := by
      simp only [area_frac]
      rw [if_neg (by rw [h0]; exact lt_irrefl 0)]
    by_cases h1 : (clipBox (boxPix b W H) reg).x1 ≥ (clipBox (boxPix b W H) reg).x2 ∨
        (clipBox (boxPix b W H) reg).y1 ≥ (clipBox (boxPix b W H) reg).y2
    · rw [convert_reject_inter b W H reg h1]
    · rw [convert_reject_small b W H reg h1 (by rw [hfr0]; norm_num)]

/-- C10 witness at the scenario-2 inputs. -/
theorem c10_reprojector_total_witness :
    (0 : ℚ) < 55 ∧
    convert_bbox_to_region_checked ⟨1/2, 1/2, 1/25, 1/25⟩ 100 100 ⟨0, 0, 55, 55⟩ =
      some (convert_bbox_to_region ⟨1/2, 1/2, 1/25, 1/25⟩ 100 100 ⟨0, 0, 55, 55⟩) :=
  ⟨by norm_num,
   c10_reprojector_total.1 ⟨1/2, 1/2, 1/25, 1/25⟩ 100 100 ⟨0, 0, 55, 55⟩
     (by norm_num) (by norm_num)⟩

/-- C8 counterexample: a single label line with 5 fields whose second
field is not numeric makes `float(...)` raise; the exception escapes the
image's processing and aborts the whole batch, even though a second,
well-formed image is still pending. -/
theorem c8_counterexample :
    processOneImage ⟨1/10, false, false⟩ (some (100, 100))
      [[.intTok 0, .junkTok, .intTok 0, .intTok 0, .intTok 0]] = .error () ∧
    processBatch ⟨1/10, false, false⟩
      [(some (100, 100), [[.intTok 0, .junkTok, .intTok 0, .intTok 0, .intTok 0]]),
       (some (100, 100), [])] = .error () :=
  ⟨rfl, rfl⟩

/-- C8 (amended): a label line with fewer than 5 fields is skipped
individually while the rest of the file is still parsed, and an
unreadable image aborts only that image (the batch continues with a
0-tile count for it); but a label line with at least 5 fields whose
class or bbox field fails numeric conversion raises an exception that
propagates out of the image's processing and aborts the whole batch. -/
theorem c8_error_handling :
    (∀ (l : List LabelField) (rest : List (List LabelField)), l.length < 5 →
      readAnnotations (l :: rest) = readAnnotations rest) ∧
    (∀ (cfg : SplitConfig) (lines : List (List LabelField))
       (rest : List (Option (ℤ × ℤ) × List (List LabelField))),
      processBatch cfg ((none, lines) :: rest) =
        (processBatch cfg rest).map fun tail => 0 :: tail) ∧
    (∀ (cfg : SplitConfig) (wh : ℤ × ℤ) (lines : List (List LabelField))
       (rest : List (Option (ℤ × ℤ) × List (List LabelField))),
      readAnnotations lines = .error () →
      processBatch cfg ((some wh, lines) :: rest) = .error ()) := by
  refine ⟨?_, ?_, ?_⟩
  · intro l rest hlen
    have hp : parseLine l = .ok none := by
      match l, hlen with
      | [], _ => rfl
      | [_], _ => rfl
      | [_, _], _ => rfl
      | [_, _, _], _ => rfl
      | [_, _, _, _], _ => rfl
      | _ :: _ :: _ :: _ :: _ :: _, h => simp at h; omega
    have hunfold : readAnnotations (l :: rest) =
        match parseLine l with
        | .error e => .error e
        | .ok none => readAnnotations rest
        | .ok (some a) => (readAnnotations rest).map fun tail => a :: tail := rfl
    rw [hunfold, hp]
  · intro cfg lines rest
    rfl
  · intro cfg wh lines rest herr
    obtain ⟨w, h⟩ := wh
    have h1 : processOneImage cfg (some (w, h)) lines = .error () := by
      have hunfold : processOneImage cfg (some (w, h)) lines =
          (readAnnotations lines).map fun anns =>
            (split_image_and_labels cfg.require_full_bbox cfg.generate_center
              cfg.overlap_r w h anns).length := rfl
      rw [hunfold, herr]
      rfl
    have hunfold : processBatch cfg ((some (w, h), lines) :: rest) =
        match processOneImage cfg (some (w, h)) lines with
        | .error e => .error e
        | .ok n => (processBatch cfg rest).map fun tail => n :: tail := rfl
    rw [hunfold, h1]

/-- C8 witness: a short junk line is skipped; a 5-field junk line aborts
a one-image batch. -/
theorem c8_error_handling_witness :
    ([LabelField.junkTok] : List LabelField).length < 5 ∧
    readAnnotations [[LabelField.junkTok]] = readAnnotations [] ∧
    readAnnotations [[.intTok 0, .junkTok, .intTok 0, .intTok 0, .intTok 0]] =
      .error () ∧
    processBatch ⟨1/10, false, false⟩
      [(some (100, 100),
        [[.intTok 0, .junkTok, .intTok 0, .intTok 0, .intTok 0]])] = .error () :=
  ⟨by decide, c8_error_handling.1 [LabelField.junkTok] [] (by decide), rfl,
   c8_error_handling.2.2 ⟨1/10, false, false⟩ (100, 100)
     [[.intTok 0, .junkTok, .intTok 0, .intTok 0, .intTok 0]] [] rfl⟩

/-- No split suffix is a (list) suffix of a different split suffix, so at
most one of them can match the tail of any stem. -/
lemma split_suffixes_no_overlap :
    ∀ s1 ∈ SPLIT_SUFFIXES, ∀ s2 ∈ SPLIT_SUFFIXES,
      s1.data <:+ s2.data → s1 = s2 := by
  decide

/-- At most one split suffix matches a given stem. -/
lemma split_suffix_unique (stem : List Char) :
    ∀ s1 ∈ SPLIT_SUFFIXES, ∀ s2 ∈ SPLIT_SUFFIXES,
      s1.data <:+ stem → s2.data <:+ stem → s1 = s2 := by
  intro s1 h1 s2 h2 hs1 hs2
  rcases List.suffix_or_suffix_of_suffix hs1 hs2 with h | h
  · exact split_suffixes_no_overlap s1 h1 s2 h2 h
  · exact (split_suffixes_no_overlap s2 h2 s1 h1 h).symm

/-- A find over a list returns the unique element satisfying the predicate. -/
lemma find_eq_of_unique (l : List String) (p : String → Bool) (x : String)
    (hx : x ∈ l) (hp : p x = true) (huniq : ∀ y ∈ l, p y = true → y = x) :
    l.find? p = some x := by
  induction l with
  | nil => cases hx
  | cons a t ih =>
    by_cases hpa : p a = true
    · rw [List.find?_cons_of_pos _ hpa]
      exact congrArg some (huniq a (List.mem_cons_self a t) hpa)
    · rw [List.find?_cons_of_neg _ hpa]
      rcases List.mem_cons.mp hx with rfl | hxt
      · exact absurd hp hpa
      · exact ih hxt fun y hy hpy => huniq y (List.mem_cons_of_mem a hy) hpy

/-- C9: a file is classified as a derived tile iff its lower-cased
extension is a supported image extension and its stem ends with one of
the nine split suffixes; and for a stem ending in a split suffix, the
derived original stem is exactly the stem with that unique matched
suffix removed from the end. -/
theorem c9_cleanup_classification :
    (∀ stem ext : String,
      (is_split_image stem ext = true ↔
        pyLower ext ∈ SUPPORTED_IMAGE_EXTS ∧
          ∃ suffix ∈ SPLIT_SUFFIXES, suffix.data <:+ stem.data)) ∧
    (∀ stem suffix : String, suffix ∈ SPLIT_SUFFIXES → suffix.data <:+ stem.data →
      original_stem stem = some (stripStemSuffix stem suffix) ∧
      (stripStemSuffix stem suffix).data ++ suffix.data = stem.data) := by
  constructor
  · intro stem ext
    rw [is_split_image, Bool.and_eq_true, List.any_eq_true]
    constructor
    · rintro ⟨hext, s, hs, hmatch⟩
      refine ⟨List.elem_iff.mp hext, s, hs, ?_⟩
      rw [pyEndsWith] at hmatch
      exact List.isSuffixOf_iff_suffix.mp hmatch
    · rintro ⟨hext, s, hs, hsuf⟩
      refine ⟨List.elem_iff.mpr hext, s, hs, ?_⟩
      rw [pyEndsWith]
      exact List.isSuffixOf_iff_suffix.mpr hsuf
  · intro stem suffix hs hsuf
    have hfind : matchedSuffix stem = some suffix := by
      apply find_eq_of_unique _ _ _ hs
        (List.isSuffixOf_iff_suffix.mpr hsuf)
      intro y hy hpy
      exact split_suffix_unique stem.data y hy suffix hs
        (List.isSuffixOf_iff_suffix.mp hpy) hsuf
    constructor
    · rw [original_stem, hfind]
      rfl
    · obtain ⟨pre, hpre⟩ := hsuf
      rw [stripStemSuffix]
      have hlen : stem.data.length - suffix.data.length = pre.length := by
        rw [← hpre, List.length_append]
        omega
      rw [hlen, ← hpre, List.take_left]

/-- C9 witness: `frame_01_tl.jpg` is a derived tile with original stem
`frame_01`. -/
theorem c9_cleanup_classification_witness :
    ("_tl" : String) ∈ SPLIT_SUFFIXES ∧
    ("_tl" : String).data <:+ ("frame_01_tl" : String).data ∧
    original_stem "frame_01_tl" = some (stripStemSuffix "frame_01_tl" "_tl") ∧
    (stripStemSuffix "frame_01_tl" "_tl").data ++ ("_tl" : String).data =
      ("frame_01_tl" : String).data :=
  ⟨by decide, by decide,
   (c9_cleanup_classification.2 "frame_01_tl" "_tl" (by decide) (by decide)).1,
   (c9_cleanup_classification.2 "frame_01_tl" "_tl" (by decide) (by decide)).2⟩
